import Mathlib

/-!
Verification of the eroview repository (SICAR coordinate-to-property
automation).  The Python sources are shallowly embedded: strings become
`List Char` / `String`, floats become `ℚ`, fallible code returns
`Except String` or `Option`, and browser or network effects are passed in
as explicit oracle parameters.  Decimal literals in the source are exact
in `ℚ`; the claims settled here do not depend on binary rounding of IEEE
floats.
-/

/-! ## Generic character and string helpers (List Char level) -/

def isDig (c : Char) : Bool := c.isDigit

/-- Longest prefix of decimal digits, with the remainder. -/
def digitsPrefix : List Char → List Char × List Char
  | [] => ([], [])
  | c :: cs =>
    if isDig c then
      let p := digitsPrefix cs
      (c :: p.1, p.2)
    else ([], c :: cs)

/-- Value of a digit string, as in int parsing. -/
def natOfDigits : List Char → Nat
  | [] => 0
  | c :: cs => natOfDigitsAux (c.toNat - 48) cs
where natOfDigitsAux (acc : Nat) : List Char → Nat
  | [] => acc
  | c :: cs => natOfDigitsAux (10 * acc + (c.toNat - 48)) cs

def isWS (c : Char) : Bool := c = ' ' || c = '\t' || c = '\n' || c = '\r'

def dropWS : List Char → List Char
  | [] => []
  | c :: cs => if isWS c then dropWS cs else c :: cs

/-- Python str.strip of both ends. -/
def stripWS (cs : List Char) : List Char :=
  ((dropWS cs.reverse).reverse : List Char) |> dropWS

def startsWithL : List Char → List Char → Bool
  | _, [] => true
  | [], _ :: _ => false
  | c :: cs, d :: ds => c = d && startsWithL cs ds

/-- Python substring containment (needle in haystack). -/
def containsL (hay needle : List Char) : Bool :=
  match hay with
  | [] => startsWithL [] needle
  | _ :: t => startsWithL hay needle || containsL t needle

/-- Leftmost search: try the matcher at each start position. -/
def searchFrom (f : List Char → Option α) : List Char → Option α
  | [] => f []
  | c :: cs =>
    match f (c :: cs) with
    | some r => some r
    | none => searchFrom f cs

/-- Rightmost search, modelling a greedy dot-star before the pattern. -/
def searchLast (f : List Char → Option α) : List Char → Option α
  | [] => f []
  | c :: cs =>
    match searchLast f cs with
    | some r => some r
    | none => f (c :: cs)

/-! ## Python float parsing restricted to the decimal forms that occur -/

def qSign (neg : Bool) (q : ℚ) : ℚ := if neg then -q else q

def sgnL (neg : Bool) : List Char := if neg then ['-'] else []

/-- Unsigned part of float parsing: digits [. digits], whole input. -/
def pyFloatCore (neg : Bool) (cs1 : List Char) : Option ℚ :=
  match digitsPrefix cs1 with
  | (ds, []) => if ds.isEmpty then none else some (qSign neg (natOfDigits ds))
  | (ds, '.' :: cs3) =>
    match digitsPrefix cs3 with
    | (fs, rest) =>
      if rest.isEmpty && !(ds.isEmpty && fs.isEmpty) then
        some (qSign neg ((natOfDigits ds : ℚ) + (natOfDigits fs : ℚ) / (10 : ℚ) ^ fs.length))
      else none
  | _ => none

/-- Model of float(s) on strings of shape [sign] digits [. digits].
Inputs with exponents or surrounding whitespace do not occur at the call
sites modelled here; on any other shape the model reports a ValueError. -/
def pyFloatL (cs : List Char) : Option ℚ :=
  match cs with
  | '-' :: t => pyFloatCore true t
  | '+' :: t => pyFloatCore false t
  | _ => pyFloatCore false cs

/-! ## Regex scanners for the numeric patterns used in the sources.
Greedy matching of digit runs is equivalent to the Python regexes here
because every character required after a digit run is a non-digit. -/

/-- Unsigned anchored match of \d+\.\d+ (mandatory fraction). -/
def scanUNumStrict (cs : List Char) : Option (List Char × List Char) :=
  match digitsPrefix cs with
  | (ds, '.' :: cs3) =>
    if ds.isEmpty then none else
    match digitsPrefix cs3 with
    | (fs, rest) => if fs.isEmpty then none else some (ds ++ '.' :: fs, rest)
  | _ => none

/-- Anchored match of -?\d+\.\d+, returning the matched token and rest. -/
def scanNumStrict (cs : List Char) : Option (List Char × List Char) :=
  match cs with
  | '-' :: cs1 =>
    match scanUNumStrict cs1 with
    | some (t, r) => some ('-' :: t, r)
    | none => none
  | _ => scanUNumStrict cs

/-- Unsigned anchored match of \d+\.?\d* (optional fraction). -/
def scanUNumLoose (cs : List Char) : Option (List Char × List Char) :=
  match digitsPrefix cs with
  | (ds, rest) =>
    if ds.isEmpty then none else
    match rest with
    | '.' :: cs3 =>
      match digitsPrefix cs3 with
      | (fs, rest2) => some (ds ++ '.' :: fs, rest2)
    | _ => some (ds, rest)

/-- Anchored match of -?\d+\.?\d*. -/
def scanNumLoose (cs : List Char) : Option (List Char × List Char) :=
  match cs with
  | '-' :: cs1 =>
    match scanUNumLoose cs1 with
    | some (t, r) => some ('-' :: t, r)
    | none => none
  | _ => scanUNumLoose cs

/-- Anchored match of \d+ (a digit run). -/
def scanDigits (cs : List Char) : Option (List Char × List Char) :=
  match digitsPrefix cs with
  | (ds, rest) => if ds.isEmpty then none else some (ds, rest)

/-! ### Lemmas: every token produced by a scanner parses as a float -/

theorem digitsPrefix_all_digits : ∀ cs : List Char, ∀ c ∈ (digitsPrefix cs).1, isDig c = true := by
  intro cs
  induction cs with
  | nil => intro c h; simp [digitsPrefix] at h
  | cons a t ih =>
    intro c h
    by_cases ha : isDig a
    · simp [digitsPrefix, ha] at h
      rcases h with h | h
      · simpa [h] using ha
      · exact ih c h
    · simp [digitsPrefix, ha] at h

theorem digitsPrefix_rest_head : ∀ cs : List Char, ∀ h t, (digitsPrefix cs).2 = h :: t → isDig h = false := by
  intro cs
  induction cs with
  | nil => intro h t hh; simp [digitsPrefix] at hh
  | cons a s ih =>
    intro h t hh
    by_cases ha : isDig a
    · simp [digitsPrefix, ha] at hh
      exact ih h t hh
    · simp [digitsPrefix, ha] at hh
      rw [← hh.1]
      simpa using ha

/-- Reconstruction: on a digit run followed by a non-digit boundary the
scanner splits exactly at the boundary. -/
theorem digitsPrefix_append (ds rest : List Char)
    (hds : ∀ c ∈ ds, isDig c = true)
    (hrest : ∀ h t, rest = h :: t → isDig h = false) :
    digitsPrefix (ds ++ rest) = (ds, rest) := by
  induction ds with
  | nil =>
    cases rest with
    | nil => simp [digitsPrefix]
    | cons h t =>
      have := hrest h t rfl
      simp [digitsPrefix, this]
  | cons a s ih =>
    have ha : isDig a = true := hds a (by simp)
    have ih2 := ih (fun c hc => hds c (by simp [hc]))
    simp [digitsPrefix, ha, ih2]

theorem digitsPrefix_self (ds : List Char) (hds : ∀ c ∈ ds, isDig c = true) :
    digitsPrefix ds = (ds, []) := by
  have := digitsPrefix_append ds [] hds (by intro h t hh; cases hh)
  simpa using this

/-- Shapes of the numeric tokens the scanners can produce. -/
inductive TokShape : List Char → Prop where
  | dot (neg : Bool) (ds fs : List Char) (hds : ∀ c ∈ ds, isDig c = true)
      (hfs : ∀ c ∈ fs, isDig c = true) (hne : ds ≠ []) :
      TokShape (sgnL neg ++ ds ++ '.' :: fs)
  | plain (neg : Bool) (ds : List Char) (hds : ∀ c ∈ ds, isDig c = true)
      (hne : ds ≠ []) : TokShape (sgnL neg ++ ds)

/-- Reducing the sign wrapper of pyFloatL when the payload starts with a
digit. -/
theorem pyFloatL_sgnL (neg : Bool) (d : Char) (rest : List Char)
    (hd : isDig d = true) :
    pyFloatL (sgnL neg ++ d :: rest) = pyFloatCore neg (d :: rest) := by
  have hdm : d ≠ '-' := by
    intro h; rw [h] at hd; exact absurd hd (by decide)
  have hdp : d ≠ '+' := by
    intro h; rw [h] at hd; exact absurd hd (by decide)
  cases neg with
  | true =>
    simp [sgnL, pyFloatL]
  | false =>
    simp only [sgnL, if_neg Bool.false_ne_true, List.nil_append]
    unfold pyFloatL
    split
    · next t heq =>
      injection heq with h1 _
      exact absurd h1 hdm
    · next t heq =>
      injection heq with h1 _
      exact absurd h1 hdp
    · rfl

/-- Float parsing succeeds on a digit run with a fractional part. -/
theorem pyFloatCore_dot (neg : Bool) (ds fs : List Char)
    (hds : ∀ c ∈ ds, isDig c = true) (hfs : ∀ c ∈ fs, isDig c = true)
    (hne : ds.isEmpty = false) :
    (pyFloatCore neg (ds ++ '.' :: fs)).isSome := by
  have h1 : digitsPrefix (ds ++ '.' :: fs) = (ds, '.' :: fs) := by
    apply digitsPrefix_append ds ('.' :: fs) hds
    intro h t hh
    injection hh with hh1 _
    rw [← hh1]
    decide
  have h2 : digitsPrefix fs = (fs, []) := digitsPrefix_self fs hfs
  unfold pyFloatCore
  rw [h1]
  simp [h2, hne]

/-- Float parsing succeeds on a bare digit run. -/
theorem pyFloatCore_nodot (neg : Bool) (ds : List Char)
    (hds : ∀ c ∈ ds, isDig c = true) (hne : ds.isEmpty = false) :
    (pyFloatCore neg ds).isSome := by
  have h1 : digitsPrefix ds = (ds, []) := digitsPrefix_self ds hds
  unfold pyFloatCore
  rw [h1]
  simp [hne]

/-- Any token of a scanner shape parses as a float. -/
theorem TokShape.pyFloat {t : List Char} (h : TokShape t) :
    (pyFloatL t).isSome := by
  cases h with
  | dot neg ds fs hds hfs hne =>
    cases ds with
    | nil => exact absurd rfl hne
    | cons d ds' =>
      have hd : isDig d = true := hds d (by simp)
      have heq : (sgnL neg ++ (d :: ds') ++ '.' :: fs : List Char) =
          sgnL neg ++ d :: (ds' ++ '.' :: fs) := by simp
      rw [heq, pyFloatL_sgnL neg d _ hd]
      exact pyFloatCore_dot neg (d :: ds') fs hds hfs (by simp)
  | plain neg ds hds hne =>
    cases ds with
    | nil => exact absurd rfl hne
    | cons d ds' =>
      have hd : isDig d = true := hds d (by simp)
      rw [pyFloatL_sgnL neg d _ hd]
      exact pyFloatCore_nodot neg (d :: ds') hds (by simp)

theorem scanUNumStrict_shape (cs : List Char) (res : List Char × List Char)
    (h : scanUNumStrict cs = some res) :
    ∃ ds fs, res.1 = ds ++ '.' :: fs ∧ (∀ c ∈ ds, isDig c = true) ∧
      (∀ c ∈ fs, isDig c = true) ∧ ds ≠ [] ∧ fs ≠ [] := by
  unfold scanUNumStrict at h
  split at h
  · next ds cs3 heq =>
    split at h
    · exact absurd h (by simp)
    · next hne =>
      split at h
      next fs rest heq2 =>
        split at h
        · exact absurd h (by simp)
        · next hne2 =>
          injection h with h0
          subst h0
          refine ⟨ds, fs, rfl, ?_, ?_, by simpa using hne, by simpa using hne2⟩
          · intro c hc
            have := digitsPrefix_all_digits cs c
            rw [heq] at this
            exact this hc
          · intro c hc
            have := digitsPrefix_all_digits cs3 c
            rw [heq2] at this
            exact this hc
  · exact absurd h (by simp)

theorem scanNumStrict_shape (cs : List Char) (res : List Char × List Char)
    (h : scanNumStrict cs = some res) : TokShape res.1 := by
  unfold scanNumStrict at h
  split at h
  · next cs1 =>
    split at h
    · next t0 r0 heq =>
      injection h with h0
      subst h0
      obtain ⟨ds, fs, ht, hds, hfs, hne, _⟩ := scanUNumStrict_shape cs1 (t0, r0) heq
      simp only at ht
      subst ht
      have := TokShape.dot true ds fs hds hfs hne
      simpa [sgnL] using this
    · exact absurd h (by simp)
  · obtain ⟨ds, fs, ht, hds, hfs, hne, _⟩ := scanUNumStrict_shape cs res h
    rw [ht]
    have := TokShape.dot false ds fs hds hfs hne
    simpa [sgnL] using this

theorem scanUNumLoose_shape (cs : List Char) (res : List Char × List Char)
    (h : scanUNumLoose cs = some res) :
    ∃ ds, (∀ c ∈ ds, isDig c = true) ∧ ds ≠ [] ∧
      (res.1 = ds ∨ ∃ fs, (∀ c ∈ fs, isDig c = true) ∧ res.1 = ds ++ '.' :: fs) := by
  unfold scanUNumLoose at h
  split at h
  next ds rest heq =>
  split at h
  · exact absurd h (by simp)
  · next hne =>
    have hds : ∀ c ∈ ds, isDig c = true := by
      intro c hc
      have := digitsPrefix_all_digits cs c
      rw [heq] at this
      exact this hc
    split at h
    · next cs3 =>
      split at h
      next fs rest2 heq2 =>
      injection h with h0
      subst h0
      refine ⟨ds, hds, by simpa using hne, Or.inr ⟨fs, ?_, rfl⟩⟩
      intro c hc
      have := digitsPrefix_all_digits cs3 c
      rw [heq2] at this
      exact this hc
    · injection h with h0
      subst h0
      exact ⟨ds, hds, by simpa using hne, Or.inl rfl⟩

theorem scanNumLoose_shape (cs : List Char) (res : List Char × List Char)
    (h : scanNumLoose cs = some res) : TokShape res.1 := by
  unfold scanNumLoose at h
  split at h
  · next cs1 =>
    split at h
    · next t0 r0 heq =>
      injection h with h0
      subst h0
      obtain ⟨ds, hds, hne, hcase⟩ := scanUNumLoose_shape cs1 (t0, r0) heq
      simp only at hcase
      rcases hcase with ht | ⟨fs, hfs, ht⟩
      · show TokShape ('-' :: t0)
        rw [ht]
        have := TokShape.plain true ds hds hne
        simpa [sgnL] using this
      · show TokShape ('-' :: t0)
        rw [ht]
        have := TokShape.dot true ds fs hds hfs hne
        simpa [sgnL] using this
    · exact absurd h (by simp)
  · obtain ⟨ds, hds, hne, hcase⟩ := scanUNumLoose_shape cs res h
    rcases hcase with ht | ⟨fs, hfs, ht⟩
    · rw [ht]
      have := TokShape.plain false ds hds hne
      simpa [sgnL] using this
    · rw [ht]
      have := TokShape.dot false ds fs hds hfs hne
      simpa [sgnL] using this

theorem scanDigits_shape (cs : List Char) (res : List Char × List Char)
    (h : scanDigits cs = some res) : TokShape res.1 := by
  unfold scanDigits at h
  split at h
  next ds rest heq =>
  split at h
  · exact absurd h (by simp)
  · next hne =>
    injection h with h0
    subst h0
    have hds : ∀ c ∈ ds, isDig c = true := by
      intro c hc
      have := digitsPrefix_all_digits cs c
      rw [heq] at this
      exact this hc
    have := TokShape.plain false ds hds (by simpa using hne)
    simpa [sgnL] using this

/-- Search preserves any property of the matcher output. -/
theorem searchFrom_preserves {α : Type} (P : α → Prop) (f : List Char → Option α)
    (hf : ∀ cs r, f cs = some r → P r) :
    ∀ cs r, searchFrom f cs = some r → P r := by
  intro cs
  induction cs with
  | nil =>
    intro r h
    exact hf [] r (by simpa [searchFrom] using h)
  | cons c t ih =>
    intro r h
    unfold searchFrom at h
    split at h
    · next r0 heq =>
      injection h with h0
      subst h0
      exact hf (c :: t) r0 heq
    · exact ih r h

theorem searchLast_preserves {α : Type} (P : α → Prop) (f : List Char → Option α)
    (hf : ∀ cs r, f cs = some r → P r) :
    ∀ cs r, searchLast f cs = some r → P r := by
  intro cs
  induction cs with
  | nil =>
    intro r h
    exact hf [] r (by simpa [searchLast] using h)
  | cons c t ih =>
    intro r h
    unfold searchLast at h
    split at h
    · next r0 heq =>
      injection h with h0
      subst h0
      exact ih r0 heq
    · exact hf (c :: t) r h
/-! ## Coordinate-pair matchers used by the URL and text searches -/

/-- Second half of a pair match: comma, optional \s*, second number. -/
def matchPairRest (sp : Bool) (t1 r1 : List Char) : Option (List Char × List Char) :=
  match r1 with
  | ',' :: r2 =>
    match scanNumStrict (if sp then dropWS r2 else r2) with
    | some p2 => some (t1, p2.1)
    | none => none
  | _ => none

/-- Match of (-?\d+\.\d+),(-?\d+\.\d+), optionally with \s* after the
comma, returning the two captured group tokens. -/
def matchStrictPair (sp : Bool) (cs : List Char) : Option (List Char × List Char) :=
  match scanNumStrict cs with
  | some p1 => matchPairRest sp p1.1 p1.2
  | none => none

/-- Both captured groups of a pair are scanner tokens. -/
def GoodPair (p : List Char × List Char) : Prop := TokShape p.1 ∧ TokShape p.2

theorem matchPairRest_good (sp : Bool) (t1 r1 : List Char) (p : List Char × List Char)
    (ht : TokShape t1) (h : matchPairRest sp t1 r1 = some p) : GoodPair p := by
  unfold matchPairRest at h
  split at h
  · next r2 =>
    split at h
    · next p2 heq =>
      injection h with h0
      subst h0
      exact ⟨ht, scanNumStrict_shape _ p2 heq⟩
    · exact absurd h (by simp)
  · exact absurd h (by simp)

theorem matchStrictPair_good (sp : Bool) (cs : List Char) (p : List Char × List Char)
    (h : matchStrictPair sp cs = some p) : GoodPair p := by
  unfold matchStrictPair at h
  split at h
  · next p1 heq =>
    exact matchPairRest_good sp p1.1 p1.2 p (scanNumStrict_shape cs p1 heq) h
  · exact absurd h (by simp)

/-- One position of the slash-or-at pattern. -/
def matchSlashAtAt (s : List Char) : Option (List Char × List Char) :=
  match s with
  | c :: rest => if c = '/' || c = '@' then matchStrictPair false rest else none
  | [] => none

/-- re.search of the pattern slash-or-at followed by a strict pair, as in
the direct Google Maps URL patterns. -/
def searchSlashAtPair (cs : List Char) : Option (List Char × List Char) :=
  searchFrom matchSlashAtAt cs

theorem searchSlashAtPair_good (cs : List Char) (p : List Char × List Char)
    (h : searchSlashAtPair cs = some p) : GoodPair p := by
  refine searchFrom_preserves GoodPair _ ?_ cs p h
  intro s r hr
  unfold matchSlashAtAt at hr
  split at hr
  · next c rest =>
    split at hr
    · exact matchStrictPair_good false rest r hr
    · exact absurd hr (by simp)
  · exact absurd hr (by simp)

/-- re.search of a strict pair with optional whitespace after the comma,
anywhere in the text. -/
def searchAnyPair (cs : List Char) : Option (List Char × List Char) :=
  searchFrom (matchStrictPair true) cs

theorem searchAnyPair_good (cs : List Char) (p : List Char × List Char)
    (h : searchAnyPair cs = some p) : GoodPair p :=
  searchFrom_preserves GoodPair _ (fun s r hr => matchStrictPair_good true s r hr) cs p h

/-- re.search of a literal prefix immediately followed by a strict pair. -/
def searchLitPair (lit : List Char) (cs : List Char) : Option (List Char × List Char) :=
  searchFrom
    (fun s => if startsWithL s lit then matchStrictPair false (s.drop lit.length) else none)
    cs

theorem searchLitPair_good (lit cs : List Char) (p : List Char × List Char)
    (h : searchLitPair lit cs = some p) : GoodPair p := by
  refine searchFrom_preserves GoodPair _ ?_ cs p h
  intro s r hr
  simp only at hr
  split at hr
  · exact matchStrictPair_good false _ r hr
  · exact absurd hr (by simp)

/-- Tail of the bang pair: !4d followed by the second number. -/
def matchBangRest (t1 r1 : List Char) : Option (List Char × List Char) :=
  if startsWithL r1 ['!', '4', 'd'] then
    match scanNumStrict (r1.drop 3) with
    | some p2 => some (t1, p2.1)
    | none => none
  else none

/-- Anchored !3d(num)!4d(num), the two groups of the data= pattern. -/
def matchBangPair (cs : List Char) : Option (List Char × List Char) :=
  if startsWithL cs ['!', '3', 'd'] then
    match scanNumStrict (cs.drop 3) with
    | some p1 => matchBangRest p1.1 p1.2
    | none => none
  else none

theorem matchBangRest_good (t1 r1 : List Char) (p : List Char × List Char)
    (ht : TokShape t1) (h : matchBangRest t1 r1 = some p) : GoodPair p := by
  unfold matchBangRest at h
  split at h
  · split at h
    · next p2 heq =>
      injection h with h0
      subst h0
      exact ⟨ht, scanNumStrict_shape _ p2 heq⟩
    · exact absurd h (by simp)
  · exact absurd h (by simp)

theorem matchBangPair_good (cs : List Char) (p : List Char × List Char)
    (h : matchBangPair cs = some p) : GoodPair p := by
  unfold matchBangPair at h
  split at h
  · split at h
    · next p1 heq =>
      exact matchBangRest_good p1.1 p1.2 p (scanNumStrict_shape _ p1 heq) h
    · exact absurd h (by simp)
  · exact absurd h (by simp)

/-- Leftmost occurrence of a literal, returning the suffix after it. -/
def findAfterLit (lit : List Char) (cs : List Char) : Option (List Char) :=
  searchFrom (fun s => if startsWithL s lit then some (s.drop lit.length) else none) cs

/-- The data=.*!3d(lat)!4d(lng) search: everything after the first
data=, with the greedy dot-star selecting the rightmost bang pair. -/
def searchDataPair (cs : List Char) : Option (List Char × List Char) :=
  match findAfterLit ['d', 'a', 't', 'a', '='] cs with
  | some rest => searchLast matchBangPair rest
  | none => none

theorem searchDataPair_good (cs : List Char) (p : List Char × List Char)
    (h : searchDataPair cs = some p) : GoodPair p := by
  unfold searchDataPair at h
  split at h
  · next rest heq =>
    exact searchLast_preserves GoodPair _ (fun s r hr => matchBangPair_good s r hr) rest p h
  · exact absurd h (by simp)

/-- After /place/segment/, an optional at sign and then the pair. -/
def matchPlaceTail (r1 : List Char) : Option (List Char × List Char) :=
  match r1 with
  | '/' :: r3 =>
    match r3 with
    | '@' :: r4 => matchStrictPair false r4
    | _ => matchStrictPair false r3
  | _ => none

/-- Anchored match of the /place/ pattern:
/place/[^/]*/@?(-?\d+\.\d+),(-?\d+\.\d+). -/
def matchPlaceAt (cs : List Char) : Option (List Char × List Char) :=
  if startsWithL cs ['/', 'p', 'l', 'a', 'c', 'e', '/'] then
    matchPlaceTail ((cs.drop 7).dropWhile (fun c => c != '/'))
  else none

def searchPlacePair (cs : List Char) : Option (List Char × List Char) :=
  searchFrom matchPlaceAt cs

theorem matchPlaceTail_good (r1 : List Char) (p : List Char × List Char)
    (h : matchPlaceTail r1 = some p) : GoodPair p := by
  unfold matchPlaceTail at h
  split at h
  · next r3 =>
    split at h
    · next r4 => exact matchStrictPair_good false r4 p h
    · exact matchStrictPair_good false r3 p h
  · exact absurd h (by simp)

theorem searchPlacePair_good (cs : List Char) (p : List Char × List Char)
    (h : searchPlacePair cs = some p) : GoodPair p := by
  refine searchFrom_preserves GoodPair _ ?_ cs p h
  intro s r hr
  unfold matchPlaceAt at hr
  split at hr
  · exact matchPlaceTail_good _ r hr
  · exact absurd hr (by simp)

/-! ## Converting captured groups to a float pair (the float() calls) -/

def groupsToPair (g : Option (List Char × List Char)) : Except String (Option (ℚ × ℚ)) :=
  match g with
  | none => Except.ok none
  | some p =>
    match pyFloatL p.1, pyFloatL p.2 with
    | some x, some y => Except.ok (some (x, y))
    | _, _ => Except.error "ValueError"

theorem groupsToPair_ok (g : Option (List Char × List Char))
    (hg : ∀ p, g = some p → GoodPair p) : ∃ r, groupsToPair g = Except.ok r := by
  match g with
  | none => exact ⟨none, rfl⟩
  | some p =>
    obtain ⟨h1, h2⟩ := hg p rfl
    obtain ⟨x, hx⟩ := Option.isSome_iff_exists.mp h1.pyFloat
    obtain ⟨y, hy⟩ := Option.isSome_iff_exists.mp h2.pyFloat
    exact ⟨some (x, y), by simp [groupsToPair, hx, hy]⟩

/-- Sequencing of the if-match-return stages of the URL parser. -/
def stageOr (x next : Except String (Option (ℚ × ℚ))) : Except String (Option (ℚ × ℚ)) :=
  match x with
  | Except.error e => Except.error e
  | Except.ok (some p) => Except.ok (some p)
  | Except.ok none => next

theorem stageOr_ok {x n : Except String (Option (ℚ × ℚ))}
    (hx : ∃ r, x = Except.ok r) (hn : ∃ r, n = Except.ok r) :
    ∃ r, stageOr x n = Except.ok r := by
  obtain ⟨r1, h1⟩ := hx
  subst h1
  match r1 with
  | some p => exact ⟨some p, rfl⟩
  | none => exact hn
/-! ## Minimal models of urllib.parse.urlparse and parse_qs (library
functions used by the sources), restricted to the fields read there.
Percent and plus decoding of query values is omitted: no modelled call
site depends on it. -/

structure UrlParts where
  scheme : List Char
  netloc : List Char
  path : List Char
  query : List Char
  fragment : List Char

/-- Split at the first occurrence of a separator. -/
def splitFirst (sep : Char) : List Char → List Char × Option (List Char)
  | [] => ([], none)
  | c :: t =>
    if c = sep then ([], some t)
    else
      let p := splitFirst sep t
      (c :: p.1, p.2)

def isSchemeChar (c : Char) : Bool :=
  c.isAlpha || c.isDigit || c = '+' || c = '-' || c = '.'

def pyUrlparse (cs : List Char) : UrlParts :=
  let fsplit := splitFirst '#' cs
  let frag := fsplit.2.getD []
  let csplit := splitFirst ':' fsplit.1
  let schemeOk :=
    csplit.2.isSome && !csplit.1.isEmpty &&
    (match csplit.1 with | c :: _ => c.isAlpha | [] => false) &&
    csplit.1.all isSchemeChar
  let scheme := if schemeOk then csplit.1.map Char.toLower else []
  let rest := if schemeOk then csplit.2.getD [] else fsplit.1
  let netloc :=
    if startsWithL rest ['/', '/'] then
      (rest.drop 2).takeWhile (fun c => c != '/' && c != '?')
    else []
  let rest2 :=
    if startsWithL rest ['/', '/'] then
      (rest.drop 2).dropWhile (fun c => c != '/' && c != '?')
    else rest
  let qsplit := splitFirst '?' rest2
  ⟨scheme, netloc, qsplit.1, qsplit.2.getD [], frag⟩

def splitOn (sep : Char) : List Char → List (List Char)
  | [] => [[]]
  | c :: t =>
    let r := splitOn sep t
    if c = sep then [] :: r
    else
      match r with
      | p :: ps => (c :: p) :: ps
      | [] => [[c]]

/-- Append a value under a key, preserving first-occurrence key order as
a Python dict does. -/
def addParam (k v : List Char) : List (List Char × List (List Char)) → List (List Char × List (List Char))
  | [] => [(k, [v])]
  | e :: rest => if e.1 == k then (e.1, e.2 ++ [v]) :: rest else e :: addParam k v rest

/-- parse_qs with the default flags: pairs without an equals sign and
pairs with an empty value are skipped. -/
def pyParseQs (q : List Char) : List (List Char × List (List Char)) :=
  (splitOn '&' q).foldl
    (fun acc piece =>
      match splitFirst '=' piece with
      | (k, some v) => if v.isEmpty then acc else addParam k v acc
      | (_, none) => acc)
    []

/-! ## Embedding of src/utils/location.py (LocationManager) -/

/-- Anchored decimal coordinate pattern
(-?\d+\.?\d*),\s*(-?\d+\.?\d*) with both anchors. -/
def matchDecimalAnchored (cs : List Char) : Option (List Char × List Char) :=
  match scanNumLoose cs with
  | some p1 =>
    match p1.2 with
    | ',' :: r2 =>
      match scanNumLoose (dropWS r2) with
      | some p2 => if p2.2.isEmpty then some (p1.1, p2.1) else none
      | none => none
    | _ => none
  | none => none

theorem scanUNumLoose_tok (cs : List Char) (res : List Char × List Char)
    (h : scanUNumLoose cs = some res) : TokShape res.1 := by
  obtain ⟨ds, hds, hne, hc⟩ := scanUNumLoose_shape cs res h
  rcases hc with ht | ⟨fs, hfs, ht⟩
  · rw [ht]
    simpa [sgnL] using TokShape.plain false ds hds hne
  · rw [ht]
    simpa [sgnL] using TokShape.dot false ds fs hds hfs hne

/-- One hemisphere of the degree pattern:
(\d+)°(\d+)'(\d+\.?\d*)"([AB]) for the given letters, returning the
three numeric groups, the letter and the rest. -/
def matchDegreeHalf (a b : Char) (cs : List Char) : Option ((List Char × List Char × List Char × Char) × List Char) :=
  match scanDigits cs with
  | some p1 =>
    match p1.2 with
    | '°' :: r2 =>
      match scanDigits r2 with
      | some p2 =>
        match p2.2 with
        | '\'' :: r3 =>
          match scanUNumLoose r3 with
          | some p3 =>
            match p3.2 with
            | '"' :: r4 =>
              match r4 with
              | c4 :: r5 =>
                if c4 = a || c4 = b then some ((p1.1, p2.1, p3.1, c4), r5) else none
              | [] => none
            | _ => none
          | none => none
        | _ => none
      | none => none
    | _ => none
  | none => none

/-- The full anchored degree pattern of parse_coordinates. -/
def matchDegreePair (cs : List Char) :
    Option ((List Char × List Char × List Char × Char) × (List Char × List Char × List Char × Char)) :=
  match matchDegreeHalf 'N' 'S' cs with
  | some g1 =>
    match matchDegreeHalf 'E' 'W' (dropWS g1.2) with
    | some g2 => if g2.2.isEmpty then some (g1.1, g2.1) else none
    | none => none
  | none => none

/-- The float conversions and sign logic of the degree branch. -/
def degreesToPair (gN gE : List Char × List Char × List Char × Char) : Except String (Option (ℚ × ℚ)) :=
  match pyFloatL gN.1, pyFloatL gN.2.1, pyFloatL gN.2.2.1,
        pyFloatL gE.1, pyFloatL gE.2.1, pyFloatL gE.2.2.1 with
  | some d1, some m1, some s1, some d2, some m2, some s2 =>
    let lat0 := d1 + m1 / 60 + s1 / 3600
    let lat := if gN.2.2.2 = 'S' then -lat0 else lat0
    let lon0 := d2 + m2 / 60 + s2 / 3600
    let lon := if gE.2.2.2 = 'W' then -lon0 else lon0
    Except.ok (some (lat, lon))
  | _, _, _, _, _, _ => Except.error "ValueError"

/-- LocationManager.parse_coordinates: strip, try the decimal pattern,
then the degree pattern, else None.  An error value models an uncaught
Python exception. -/
def parse_coordinates (s : String) : Except String (Option (ℚ × ℚ)) :=
  let cs := stripWS s.toList
  match matchDecimalAnchored cs with
  | some g => groupsToPair (some g)
  | none =>
    match matchDegreePair cs with
    | some g => degreesToPair g.1 g.2
    | none => Except.ok none

/-! ### parse_coordinates never raises -/

theorem matchDecimalAnchored_good (cs : List Char) (p : List Char × List Char)
    (h : matchDecimalAnchored cs = some p) : GoodPair p := by
  unfold matchDecimalAnchored at h
  split at h
  · next p1 heq1 =>
    split at h
    · next r2 =>
      split at h
      · next p2 heq2 =>
        split at h
        · injection h with h0
          subst h0
          exact ⟨scanNumLoose_shape cs p1 heq1, scanNumLoose_shape _ p2 heq2⟩
        · exact absurd h (by simp)
      · exact absurd h (by simp)
    · exact absurd h (by simp)
  · exact absurd h (by simp)

/-- The three numeric groups of a degree half are scanner tokens. -/
def GoodDeg (g : List Char × List Char × List Char × Char) : Prop :=
  TokShape g.1 ∧ TokShape g.2.1 ∧ TokShape g.2.2.1

theorem matchDegreeHalf_good (a b : Char) (cs : List Char)
    (g : (List Char × List Char × List Char × Char) × List Char)
    (h : matchDegreeHalf a b cs = some g) : GoodDeg g.1 := by
  unfold matchDegreeHalf at h
  split at h
  · next p1 heq1 =>
    split at h
    · next r2 =>
      split at h
      · next p2 heq2 =>
        split at h
        · next r3 =>
          split at h
          · next p3 heq3 =>
            split at h
            · next r4 =>
              split at h
              · next c4 r5 =>
                split at h
                · injection h with h0
                  subst h0
                  exact ⟨scanDigits_shape cs p1 heq1, scanDigits_shape _ p2 heq2,
                         scanUNumLoose_tok _ p3 heq3⟩
                · exact absurd h (by simp)
              · exact absurd h (by simp)
            · exact absurd h (by simp)
          · exact absurd h (by simp)
        · exact absurd h (by simp)
      · exact absurd h (by simp)
    · exact absurd h (by simp)
  · exact absurd h (by simp)

theorem degreesToPair_ok (gN gE : List Char × List Char × List Char × Char)
    (hN : GoodDeg gN) (hE : GoodDeg gE) : ∃ r, degreesToPair gN gE = Except.ok r := by
  obtain ⟨hN1, hN2, hN3⟩ := hN
  obtain ⟨hE1, hE2, hE3⟩ := hE
  obtain ⟨d1, hd1⟩ := Option.isSome_iff_exists.mp hN1.pyFloat
  obtain ⟨m1, hm1⟩ := Option.isSome_iff_exists.mp hN2.pyFloat
  obtain ⟨s1, hs1⟩ := Option.isSome_iff_exists.mp hN3.pyFloat
  obtain ⟨d2, hd2⟩ := Option.isSome_iff_exists.mp hE1.pyFloat
  obtain ⟨m2, hm2⟩ := Option.isSome_iff_exists.mp hE2.pyFloat
  obtain ⟨s2, hs2⟩ := Option.isSome_iff_exists.mp hE3.pyFloat
  have h : degreesToPair gN gE =
      Except.ok (some
        ((if gN.2.2.2 = 'S' then -(d1 + m1 / 60 + s1 / 3600) else d1 + m1 / 60 + s1 / 3600),
         (if gE.2.2.2 = 'W' then -(d2 + m2 / 60 + s2 / 3600) else d2 + m2 / 60 + s2 / 3600))) := by
    unfold degreesToPair
    rw [hd1, hm1, hs1, hd2, hm2, hs2]
  exact ⟨_, h⟩

theorem parse_coordinates_ok (s : String) : ∃ r, parse_coordinates s = Except.ok r := by
  simp only [parse_coordinates]
  split
  · next g heq => exact groupsToPair_ok _ (by intro p hp; injection hp with h0; subst h0; exact matchDecimalAnchored_good _ g heq)
  · split
    · next g heq =>
      unfold matchDegreePair at heq
      split at heq
      · next g1 heq1 =>
        split at heq
        · next g2 heq2 =>
          split at heq
          · injection heq with h0
            subst h0
            exact degreesToPair_ok _ _ (matchDegreeHalf_good 'N' 'S' _ g1 heq1)
              (matchDegreeHalf_good 'E' 'W' _ g2 heq2)
          · exact absurd heq (by simp)
        · exact absurd heq (by simp)
      · exact absurd heq (by simp)
    · exact ⟨none, rfl⟩
/-! ### LocationManager.extract_from_maps_url.  Network expansion of a
short URL is an oracle: none models a request exception (caught in the
source), some u the redirected URL. -/

/-- Scan every value of a parameter entry list for a coordinate pair. -/
def scanValueList : List (List Char) → Option (List Char × List Char)
  | [] => none
  | v :: rest =>
    match searchAnyPair v with
    | some p => some p
    | none => scanValueList rest

def scanParamsValues : List (List Char × List (List Char)) → Option (List Char × List Char)
  | [] => none
  | e :: rest =>
    match scanValueList e.2 with
    | some p => some p
    | none => scanParamsValues rest

def lookupParam (ps : List (List Char × List (List Char))) (k : List Char) :
    Option (List (List Char)) :=
  match ps.find? (fun e => e.1 == k) with
  | some e => some e.2
  | none => none

/-- The specific-parameter pass: first value of each named parameter. -/
def scanSpecific (ps : List (List Char × List (List Char))) :
    List (List Char) → Option (List Char × List Char)
  | [] => none
  | k :: ks =>
    match lookupParam ps k with
    | some (v :: _) =>
      match searchAnyPair v with
      | some p => some p
      | none => scanSpecific ps ks
    | _ => scanSpecific ps ks

def specificKeys : List (List Char) :=
  ["ll".toList, "sll".toList, "center".toList, "q".toList, "daddr".toList, "saddr".toList]

def googleDomains : List (List Char) :=
  ["google.com".toList, "maps.google".toList, "goo.gl".toList]

def googleNetloc (netloc : List Char) : Bool :=
  googleDomains.any (fun d => containsL netloc d)

/-- The stages guarded by the Google-domain check: all query parameter
values, the specific parameters, the data= pattern, the /place/ pattern. -/
def googleStages (url : List Char) (query : List Char) : Except String (Option (ℚ × ℚ)) :=
  let params := pyParseQs query
  stageOr (groupsToPair (scanParamsValues params))
    (stageOr (groupsToPair (scanSpecific params specificKeys))
      (stageOr (groupsToPair (searchDataPair url))
        (if containsL url ("/place/".toList) then groupsToPair (searchPlacePair url)
         else Except.ok none)))

/-- The stages after URL parsing: path, fragment, google-domain stages,
and the final anywhere-in-the-url pair search. -/
def restStages (url : List Char) : Except String (Option (ℚ × ℚ)) :=
  let parsed := pyUrlparse url
  stageOr (groupsToPair (searchSlashAtPair parsed.path))
    (stageOr (if parsed.fragment.isEmpty then Except.ok none
              else groupsToPair (searchSlashAtPair parsed.fragment))
      (stageOr (if googleNetloc parsed.netloc then googleStages url parsed.query
                else Except.ok none)
        (groupsToPair (searchAnyPair url))))

/-- Body of extract_from_maps_url before the enclosing try/except. -/
def extractBody (expand : List Char → Option (List Char)) (url0 : List Char) :
    Except String (Option (ℚ × ℚ)) :=
  stageOr (groupsToPair (searchSlashAtPair url0))
    (if containsL url0 ("goo.gl".toList) || containsL url0 ("maps.app.goo.gl".toList) then
      match expand url0 with
      | some u => stageOr (groupsToPair (searchSlashAtPair u)) (restStages u)
      | none => restStages url0
    else restStages url0)

/-- LocationManager.extract_from_maps_url: the body wrapped in the
enclosing try/except that converts any exception to None. -/
def extract_from_maps_url (expand : List Char → Option (List Char)) (url : String) :
    Option (ℚ × ℚ) :=
  match extractBody expand url.toList with
  | Except.error _ => none
  | Except.ok r => r

/-! ### extract_from_maps_url never raises: the body itself never
produces an error, because every float() call receives a regex-matched
decimal token. -/

theorem scanValueList_good (vs : List (List Char)) (p : List Char × List Char)
    (h : scanValueList vs = some p) : GoodPair p := by
  induction vs with
  | nil => exact absurd h (by simp [scanValueList])
  | cons v rest ih =>
    unfold scanValueList at h
    split at h
    · next p0 heq =>
      injection h with h0
      subst h0
      exact searchAnyPair_good v p0 heq
    · exact ih h

theorem scanParamsValues_good (ps : List (List Char × List (List Char)))
    (p : List Char × List Char) (h : scanParamsValues ps = some p) : GoodPair p := by
  induction ps with
  | nil => exact absurd h (by simp [scanParamsValues])
  | cons e rest ih =>
    unfold scanParamsValues at h
    split at h
    · next p0 heq =>
      injection h with h0
      subst h0
      exact scanValueList_good e.2 p0 heq
    · exact ih h

theorem scanSpecific_good (ps : List (List Char × List (List Char)))
    (ks : List (List Char)) (p : List Char × List Char)
    (h : scanSpecific ps ks = some p) : GoodPair p := by
  induction ks with
  | nil => exact absurd h (by simp [scanSpecific])
  | cons k rest ih =>
    unfold scanSpecific at h
    split at h
    · next v vs heq =>
      split at h
      · next p0 heq2 =>
        injection h with h0
        subst h0
        exact searchAnyPair_good v p0 heq2
      · exact ih h
    · exact ih h

theorem googleStages_ok (url query : List Char) :
    ∃ r, googleStages url query = Except.ok r := by
  unfold googleStages
  refine stageOr_ok (groupsToPair_ok _ ?_) (stageOr_ok (groupsToPair_ok _ ?_)
    (stageOr_ok (groupsToPair_ok _ ?_) ?_))
  · intro p hp
    exact scanParamsValues_good _ p hp
  · intro p hp
    exact scanSpecific_good _ _ p hp
  · intro p hp
    exact searchDataPair_good _ p hp
  · split
    · exact groupsToPair_ok _ (fun p hp => searchPlacePair_good _ p hp)
    · exact ⟨none, rfl⟩

theorem restStages_ok (url : List Char) : ∃ r, restStages url = Except.ok r := by
  unfold restStages
  refine stageOr_ok (groupsToPair_ok _ ?_) (stageOr_ok ?_ (stageOr_ok ?_ (groupsToPair_ok _ ?_)))
  · intro p hp
    exact searchSlashAtPair_good _ p hp
  · split
    · exact ⟨none, rfl⟩
    · exact groupsToPair_ok _ (fun p hp => searchSlashAtPair_good _ p hp)
  · split
    · exact googleStages_ok url _
    · exact ⟨none, rfl⟩
  · intro p hp
    exact searchAnyPair_good _ p hp

theorem extractBody_ok (expand : List Char → Option (List Char)) (url0 : List Char) :
    ∃ r, extractBody expand url0 = Except.ok r := by
  unfold extractBody
  refine stageOr_ok (groupsToPair_ok _ ?_) ?_
  · intro p hp
    exact searchSlashAtPair_good _ p hp
  · split
    · split
      · next u heq =>
        exact stageOr_ok (groupsToPair_ok _ (fun p hp => searchSlashAtPair_good _ p hp))
          (restStages_ok u)
      · exact restStages_ok url0
    · exact restStages_ok url0

/-- The try/except wrapper returns exactly the ok value of the body, so
no exception ever escapes and no error value is ever silently invented. -/
theorem extract_from_maps_url_ok (expand : List Char → Option (List Char)) (url : String) :
    ∃ r, extractBody expand url.toList = Except.ok r ∧ extract_from_maps_url expand url = r := by
  obtain ⟨r, hr⟩ := extractBody_ok expand url.toList
  refine ⟨r, hr, ?_⟩
  unfold extract_from_maps_url
  rw [hr]
/-! ## Embedding of src/sicar_connector.py (SICARConnector) -/

/-- SICARConnector.parse_google_maps_url: three regex patterns in order,
then the ll query parameter.  The float() calls on the split ll value
can raise, modelled by the error case. -/
def llStage (url : List Char) : Except String (Option (ℚ × ℚ)) :=
  let parsed := pyUrlparse url
  let params := pyParseQs parsed.query
  match lookupParam params ("ll".toList) with
  | some (v :: _) =>
    match splitOn ',' v with
    | [a, b] =>
      match pyFloatL a, pyFloatL b with
      | some x, some y => Except.ok (some (x, y))
      | _, _ => Except.error "ValueError"
    | _ => Except.ok none
  | _ => Except.ok none

def parse_google_maps_url (url : List Char) : Except String (Option (ℚ × ℚ)) :=
  stageOr (groupsToPair (searchLitPair ['@'] url))
    (stageOr (groupsToPair (searchLitPair ("q=".toList) url))
      (stageOr (groupsToPair (searchLitPair ("q=loc:".toList) url))
        (llStage url)))

/-- re.findall of -?\d+\.\d+: leftmost matches, resuming after each. -/
theorem scanNumStrict_rest_lt (cs : List Char) (p : List Char × List Char)
    (h : scanNumStrict cs = some p) : p.2.length < cs.length := by
  have hlen : ∀ xs : List Char,
      (digitsPrefix xs).1.length + (digitsPrefix xs).2.length = xs.length := by
    intro xs
    induction xs with
    | nil => simp [digitsPrefix]
    | cons a t ih =>
      by_cases ha : isDig a
      · simp [digitsPrefix, ha]
        omega
      · simp [digitsPrefix, ha]
  have hu : ∀ xs q, scanUNumStrict xs = some q → q.2.length < xs.length := by
    intro xs q hq
    unfold scanUNumStrict at hq
    split at hq
    · next ds cs3 heq =>
      split at hq
      · exact absurd hq (by simp)
      · split at hq
        next fs rest heq2 =>
          split at hq
          · exact absurd hq (by simp)
          · next hne2 =>
            injection hq with h0
            subst h0
            have e1 := hlen xs
            have e2 := hlen cs3
            rw [heq] at e1
            rw [heq2] at e2
            simp at e1 e2
            have : fs.length ≥ 1 := by
              cases fs with
              | nil => simp at hne2
              | cons a b => simp
            simp
            omega
    · exact absurd hq (by simp)
  unfold scanNumStrict at h
  split at h
  · next cs1 =>
    split at h
    · next t0 r0 heq =>
      injection h with h0
      subst h0
      have := hu cs1 (t0, r0) heq
      simp at this ⊢
      omega
    · exact absurd h (by simp)
  · exact hu cs p h

def findAllStrict : List Char → List (List Char)
  | [] => []
  | c :: cs =>
    match h : scanNumStrict (c :: cs) with
    | some p => p.1 :: findAllStrict p.2
    | none => findAllStrict cs
termination_by cs => cs.length
decreasing_by
  · have := scanNumStrict_rest_lt (c :: cs) p h
    simpa using this
  · simp

/-- Input forms accepted by normalize_coordinates: a two-tuple or a
string. -/
inductive CoordInput where
  | pair : ℚ → ℚ → CoordInput
  | str : String → CoordInput

/-- SICARConnector.normalize_coordinates.  A tuple is returned as is; a
string is checked for a Google Maps URL, then scanned for two decimals;
anything else raises ValueError. -/
def normalize_coordinates : CoordInput → Except String (ℚ × ℚ)
  | CoordInput.pair a b => Except.ok (a, b)
  | CoordInput.str s =>
    let cs := s.toList
    let urlResult : Except String (Option (ℚ × ℚ)) :=
      if containsL cs ("google.com/maps".toList) || containsL cs ("goo.gl/maps".toList) then
        parse_google_maps_url cs
      else Except.ok none
    match urlResult with
    | Except.error e => Except.error e
    | Except.ok (some p) => Except.ok p
    | Except.ok none =>
      match findAllStrict cs with
      | a :: b :: _ =>
        match pyFloatL a, pyFloatL b with
        | some x, some y => Except.ok (x, y)
        | _, _ => Except.error "ValueError"
      | _ => Except.error "ValueError: formato de coordenadas nao reconhecido"

deriving instance DecidableEq for Except

/-- Python abs() on an exact rational, written to compute. -/
def pyAbs (q : ℚ) : ℚ := if q < 0 then -q else q

/-- Floor on an exact rational, written to compute. -/
def ratFloor (q : ℚ) : ℤ := q.num.fdiv q.den

/-- SICARConnector.find_state_and_municipality: the fixed test box, then
five regional boxes, else the Douradina default. -/
def find_state_and_municipality (lat lng : ℚ) : String × String × String :=
  if pyAbs (lat - (-23.276064 : ℚ)) < 0.1 ∧ pyAbs (lng - (-53.266292 : ℚ)) < 0.1 then
    ("PR", "Paraná", "Douradina")
  else if -12 > lat ∧ lat > -18 ∧ -38 > lng ∧ lng > -44 then
    ("BA", "Bahia", "Salvador")
  else if -22 > lat ∧ lat > -33 ∧ -48 > lng ∧ lng > -58 then
    ("RS", "Rio Grande do Sul", "Porto Alegre")
  else if -15 > lat ∧ lat > -25 ∧ -40 > lng ∧ lng > -48 then
    ("SP", "São Paulo", "São Paulo")
  else if -10 > lat ∧ lat > -20 ∧ -45 > lng ∧ lng > -60 then
    ("MT", "Mato Grosso", "Cuiabá")
  else if 5 > lat ∧ lat > -10 ∧ -50 > lng ∧ lng > -70 then
    ("PA", "Pará", "Belém")
  else
    ("PR", "Paraná", "Douradina")

/-- int() truncation toward zero on an exact rational. -/
def pyInt (q : ℚ) : ℤ := q.num.tdiv q.den

/-- round(x, 2): round half to even at two decimals, exact model. -/
def pyRound2 (q : ℚ) : ℚ :=
  let y := q * 100
  let f : ℤ := ratFloor y
  let r := y - f
  let n : ℤ :=
    if r < 1 / 2 then f
    else if r > 1 / 2 then f + 1
    else if f % 2 = 0 then f else f + 1
  (n : ℚ) / 100

structure PropInfo where
  found : Bool
  state : String
  state_name : String
  municipality : String
  property_name : String
  car_code : String
  area : ℚ
  coordinates : ℚ × ℚ
  has_map : Bool
deriving DecidableEq

/-- The dict built by SICARConnector.search_property once coordinates
are normalized. -/
def search_property_record (lat lng : ℚ) : PropInfo :=
  let s := find_state_and_municipality lat lng
  if pyAbs (lat - (-23.276064 : ℚ)) < 0.1 ∧ pyAbs (lng - (-53.266292 : ℚ)) < 0.1 then
    { found := true, state := s.1, state_name := s.2.1, municipality := s.2.2,
      property_name := "Fazenda Santa Maria",
      car_code := "PR-4107207-79A269BEFA1443F9B06F8B7470D9F239",
      area := 128.5, coordinates := (lat, lng), has_map := true }
  else
    { found := true, state := s.1, state_name := s.2.1, municipality := s.2.2,
      property_name := "Propriedade em " ++ s.2.2,
      car_code := s.1 ++ "-SIMULADO-" ++ toString (pyInt (lat * 1000)).natAbs
        ++ toString (pyInt (lng * 1000)).natAbs,
      area := pyRound2 (pyAbs (lat * lng) / 10), coordinates := (lat, lng), has_map := true }

def search_property (input : CoordInput) : Except String PropInfo :=
  match normalize_coordinates input with
  | Except.error e => Except.error e
  | Except.ok p => Except.ok (search_property_record p.1 p.2)

structure SimInfo where
  found : Bool
  state : String
  state_name : String
  municipality : String
  property_name : String
  car_code : String
  area : ℚ
  coordinates : ℚ × ℚ
  has_map : Bool
  simulated : Bool
deriving DecidableEq

/-- SICARConnector.simulate_search. -/
def simulate_search (lat lng : ℚ) : SimInfo :=
  let s := find_state_and_municipality lat lng
  { found := true, state := s.1, state_name := s.2.1, municipality := s.2.2,
    property_name := "Propriedade Simulada em " ++ s.2.2,
    car_code := s.1 ++ "-SIM-" ++ toString (pyInt (lat * 1000)).natAbs
      ++ toString (pyInt (lng * 1000)).natAbs,
    area := pyRound2 (pyAbs (lat * lng) / 10), coordinates := (lat, lng), has_map := true,
    simulated := true }
/-! ## Embedding of src/dev_sicar.py: the global status dict and the
request handlers that mutate it.  Timestamps, log lists and the robot
handle do not affect the claims and are omitted; statuses are the
literal strings of the source. -/

structure StepRec where
  id : String
  status : String
deriving DecidableEq

structure AppState where
  status : String
  message : String
  progress : Nat
  steps : List StepRec
  searchId : Option String
deriving DecidableEq

def resetSteps : List StepRec :=
  [⟨"init", "pending"⟩, ⟨"browser", "pending"⟩, ⟨"access_site", "pending"⟩,
   ⟨"select_state", "pending"⟩, ⟨"select_city", "pending"⟩,
   ⟨"select_property", "pending"⟩, ⟨"extract", "pending"⟩, ⟨"finish", "pending"⟩]

def reset_state : AppState :=
  { status := "idle", message := "Pronto para iniciar", progress := 0,
    steps := resetSteps, searchId := none }

/-- The steps list installed by the /iniciar handler. -/
def iniciarSteps : List StepRec :=
  [⟨"init", "success"⟩, ⟨"browser", "running"⟩, ⟨"access_site", "pending"⟩,
   ⟨"select_state", "pending"⟩, ⟨"select_city", "pending"⟩,
   ⟨"select_property", "pending"⟩, ⟨"extract", "pending"⟩, ⟨"finish", "pending"⟩]

/-- The /iniciar handler.  Coordinates are modelled after extraction and
float conversion: none stands for a missing or unconvertible value, in
which case the handler returns 400 before touching the state. -/
def iniciar_busca (lat lon : Option ℚ) (s : AppState) : AppState :=
  match lat, lon with
  | some _, some _ =>
    { reset_state with status := "running", steps := iniciarSteps }
  | _, _ => s

/-- The /cancelar handler: refuses unless running, else closes the
robot, sets idle and marks every running step canceled. -/
def cancelar_busca (s : AppState) : AppState :=
  if s.status != "running" then s
  else
    { s with
      status := "idle", message := "Processo cancelado pelo usuário",
      progress := 0,
      steps := s.steps.map
        (fun st => if st.status == "running" then { st with status := "canceled" } else st) }

/-- The /sicar/search handler: resets the state, then on present
coordinates stores a fresh search id and sets running.  The reset
happens before validation, so even a rejected request leaves the state
reset. -/
def sicar_search (sid : String) (coordsPresent : Bool) (_s : AppState) : AppState :=
  if coordsPresent then
    { reset_state with
      searchId := some sid, status := "running",
      message := "Iniciando busca..." }
  else reset_state

/-- update_progress: set the status of the first step with the given id,
else append a new step unless the status is skipped. -/
def updateSteps (stepId status : String) : List StepRec → List StepRec × Bool
  | [] => ([], false)
  | st :: rest =>
    if st.id == stepId then ({ st with status := status } :: rest, true)
    else
      let r := updateSteps stepId status rest
      (st :: r.1, r.2)

def update_progress (stepId status : String) (s : AppState) : AppState :=
  let r := updateSteps stepId status s.steps
  let steps2 :=
    if r.2 then r.1
    else if status != "skipped" then r.1 ++ [⟨stepId, status⟩]
    else r.1
  { s with steps := steps2 }

/-- The /sicar/cancel/<id> handler: 404 unless the id matches; then sets
canceled if running.  The steps list is not touched. -/
def sicar_cancel (sid : String) (s : AppState) : AppState :=
  if s.searchId != some sid then s
  else if s.status == "running" then
    { s with status := "canceled", message := "Busca cancelada pelo usuário" }
  else s

/-- The progress computation of the /status handler. -/
def statusProgress (steps : List StepRec) : Nat :=
  if steps.isEmpty then 0
  else
    let total := steps.length
    let completed := steps.countP (fun st => st.status == "success" || st.status == "error")
    let running := steps.countP (fun st => st.status == "running")
    (completed * 100 + running * 50) / total

theorem countP_disjoint_le (l : List StepRec) (p q : StepRec → Bool)
    (h : ∀ a, ¬(p a = true ∧ q a = true)) :
    l.countP p + l.countP q ≤ l.length := by
  induction l with
  | nil => simp
  | cons a t ih =>
    by_cases hp : p a = true
    · have hq : q a = false := by
        by_contra hq0
        exact h a ⟨hp, by simpa using hq0⟩
      simp [List.countP_cons, hp, hq]
      omega
    · simp [List.countP_cons, Bool.of_not_eq_true hp]
      by_cases hq : q a = true
      · simp [hq]
        omega
      · simp [Bool.of_not_eq_true hq]
        omega
/-! ## Embedding of src/utils/sicar_robot.py (SICARRobot).  Browser and
network interaction is represented by oracle parameters; the pure string
logic is translated directly. -/

/-- str.upper restricted to ASCII plus the accented letters appearing in
Brazilian state names. -/
def pyUpperChar (c : Char) : Char :=
  match c with
  | 'á' => 'Á'
  | 'à' => 'À'
  | 'â' => 'Â'
  | 'ã' => 'Ã'
  | 'é' => 'É'
  | 'ê' => 'Ê'
  | 'í' => 'Í'
  | 'ó' => 'Ó'
  | 'ô' => 'Ô'
  | 'õ' => 'Õ'
  | 'ú' => 'Ú'
  | 'ç' => 'Ç'
  | _ => c.toUpper

def pyUpper (s : String) : String := String.mk (s.toList.map pyUpperChar)

def pyLowerChar (c : Char) : Char :=
  match c with
  | 'Á' => 'á'
  | 'À' => 'à'
  | 'Â' => 'â'
  | 'Ã' => 'ã'
  | 'É' => 'é'
  | 'Ê' => 'ê'
  | 'Í' => 'í'
  | 'Ó' => 'ó'
  | 'Ô' => 'ô'
  | 'Õ' => 'õ'
  | 'Ú' => 'ú'
  | 'Ç' => 'ç'
  | _ => c.toLower

def pyLower (s : String) : String := String.mk (s.toList.map pyLowerChar)

def pyStripStr (s : String) : String := String.mk (stripWS s.toList)

/-- The unidecode function restricted to the accented letters appearing
in Brazilian state names. -/
def unidecodeChar (c : Char) : Char :=
  match c with
  | 'Á' => 'A'
  | 'À' => 'A'
  | 'Â' => 'A'
  | 'Ã' => 'A'
  | 'É' => 'E'
  | 'Ê' => 'E'
  | 'Í' => 'I'
  | 'Ó' => 'O'
  | 'Ô' => 'O'
  | 'Õ' => 'O'
  | 'Ú' => 'U'
  | 'Ç' => 'C'
  | 'á' => 'a'
  | 'à' => 'a'
  | 'â' => 'a'
  | 'ã' => 'a'
  | 'é' => 'e'
  | 'ê' => 'e'
  | 'í' => 'i'
  | 'ó' => 'o'
  | 'ô' => 'o'
  | 'õ' => 'o'
  | 'ú' => 'u'
  | 'ç' => 'c'
  | _ => c

def pyUnidecode (s : String) : String := String.mk (s.toList.map unidecodeChar)

/-- Substring containment on strings (Python in operator). -/
def pyContains (hay needle : String) : Bool := containsL hay.toList needle.toList

/-- The insertion-ordered dict of _mapear_estado_para_sigla. -/
def mapaEstados : List (String × String) :=
  [("ACRE", "AC"), ("ALAGOAS", "AL"), ("AMAPA", "AP"), ("AMAZONAS", "AM"),
   ("BAHIA", "BA"), ("CEARA", "CE"), ("DISTRITO FEDERAL", "DF"),
   ("ESPIRITO SANTO", "ES"), ("GOIAS", "GO"), ("MARANHAO", "MA"),
   ("MATO GROSSO", "MT"), ("MATO GROSSO DO SUL", "MS"), ("MINAS GERAIS", "MG"),
   ("PARA", "PA"), ("PARAIBA", "PB"), ("PARANA", "PR"), ("PERNAMBUCO", "PE"),
   ("PIAUI", "PI"), ("RIO DE JANEIRO", "RJ"), ("RIO GRANDE DO NORTE", "RN"),
   ("RIO GRANDE DO SUL", "RS"), ("RONDONIA", "RO"), ("RORAIMA", "RR"),
   ("SANTA CATARINA", "SC"), ("SAO PAULO", "SP"), ("SERGIPE", "SE"),
   ("TOCANTINS", "TO")]

def mapearLoop (norm : String) : List (String × String) → Option String
  | [] => none
  | e :: rest =>
    if norm == e.1 || norm == e.2 then some e.2
    else if pyContains e.1 norm then some e.2
    else mapearLoop norm rest

/-- SICARRobot._mapear_estado_para_sigla: normalize with
unidecode(upper(.)), scan the dict in insertion order, then the
two-letter and first-two-letters fallbacks. -/
def mapear_estado_para_sigla (estado : String) : String :=
  let norm := pyUnidecode (pyUpper estado)
  match mapearLoop norm mapaEstados with
  | some sigla => sigla
  | none =>
    if norm.toList.length == 2 then norm
    else String.mk (norm.toList.take 2)

/-- The robot module does `from unidecode import unidecode`, binding the
name to the function itself.  The expression unidecode.unidecode used in
nome_para_uf and in the map strategy is therefore an attribute lookup on
a function object, which has no such attribute. -/
def unidecodeAttr : Option (String → String) := none

def nomeParaUfMapeamento : List (String × String) :=
  [("acre", "AC"), ("alagoas", "AL"), ("amapá", "AP"), ("amazonas", "AM"),
   ("bahia", "BA"), ("ceará", "CE"), ("distrito federal", "DF"),
   ("espírito santo", "ES"), ("goiás", "GO"), ("maranhão", "MA"),
   ("mato grosso", "MT"), ("mato grosso do sul", "MS"), ("minas gerais", "MG"),
   ("pará", "PA"), ("paraíba", "PB"), ("paraná", "PR"), ("pernambuco", "PE"),
   ("piauí", "PI"), ("rio de janeiro", "RJ"), ("rio grande do norte", "RN"),
   ("rio grande do sul", "RS"), ("rondônia", "RO"), ("roraima", "RR"),
   ("santa catarina", "SC"), ("são paulo", "SP"), ("sergipe", "SE"),
   ("tocantins", "TO")]

/-- SICARRobot.nome_para_uf.  After lower().strip() the code evaluates
unidecode.unidecode(nome_estado), which raises AttributeError before any
comparison; the rest of the function is unreachable. -/
def nome_para_uf (nome_estado : String) : Except String (Option String) :=
  let s1 := pyStripStr (pyLower nome_estado)
  match unidecodeAttr with
  | none => Except.error "AttributeError"
  | some ud =>
    let s2 := ud s1
    match nomeParaUfMapeamento.find? (fun e => s2 == ud e.1) with
    | some e => Except.ok (some e.2)
    | none =>
      match nomeParaUfMapeamento.find? (fun e => s2 == pyLower e.2) with
      | some e => Except.ok (some e.2)
      | none => Except.ok none

/-! ### SICARRobot.acessar_sicar (retry loop, C5) -/

/-- Outcome of one attempt to load the portal page: identified by the
page markers, reached via the alternative consulta link, loaded but not
identified, or an exception from the driver (caught per attempt). -/
inductive LoadOutcome where
  | identified
  | altConsulta
  | unidentified
  | err

/-- Whether one attempt makes the function return True: a marker match,
the alternative navigation, or the dev-mode fallback on an unidentified
page. -/
def attemptSucceeds (devMode : Bool) : LoadOutcome → Bool
  | LoadOutcome.identified => true
  | LoadOutcome.altConsulta => true
  | LoadOutcome.unidentified => devMode
  | LoadOutcome.err => false

/-- The retry loop: attempt index, remaining attempts; returns the
result, the number of load attempts made, and the sleeps inserted after
failed attempts (always two seconds, no backoff). -/
def acessarLoop (devMode : Bool) (env : Nat → LoadOutcome) : Nat → Nat → Bool × Nat × List Nat
  | i, 0 => (false, i, [])
  | i, Nat.succ k =>
    if attemptSucceeds devMode (env i) then (true, i + 1, [])
    else
      let r := acessarLoop devMode env (i + 1) k
      (r.1, r.2.1, 2 :: r.2.2)

/-- SICARRobot.acessar_sicar as a function of the per-attempt load
outcome.  The five-second in-attempt page-load waits are part of a
single attempt, not of the retry delay, and are not recorded. -/
def acessar_sicar (devMode : Bool) (env : Nat → LoadOutcome) (maxAttempts : Nat := 5) :
    Bool × Nat × List Nat :=
  acessarLoop devMode env 0 maxAttempts

/-! ### SICARRobot.selecionar_estado (strategy cascade, C6) -/

/-- DOM outcomes of the three selection strategies, as functions of the
normalized state name.  Each strategy catches its own exceptions and
returns a plain boolean, so a boolean oracle is faithful. -/
structure EstadoEnv where
  dropdown : String → Bool
  lista : String → Bool
  mapaDom : String → Bool

def selecionar_estado_dropdown (env : EstadoEnv) (estado : String) : Bool :=
  env.dropdown estado

def selecionar_estado_lista (env : EstadoEnv) (estado : String) : Bool :=
  env.lista estado

/-- _selecionar_estado_mapa first evaluates unidecode.unidecode on the
state name, which raises AttributeError (same from-import as
nome_para_uf); the except of the strategy catches it and returns False,
so the DOM oracle is never consulted. -/
def selecionar_estado_mapa (env : EstadoEnv) (estado : String) : Bool :=
  match unidecodeAttr with
  | none => false
  | some _ => env.mapaDom estado

/-- SICARRobot.selecionar_estado: normalize the name, then try dropdown,
list and map strategies in order, stopping at the first success.  The
second component records which strategies were run. -/
def selecionar_estado (env : EstadoEnv) (estado : String) : Bool × List String :=
  let e := pyStripStr (pyUpper estado)
  if selecionar_estado_dropdown env e then (true, ["dropdown"])
  else if selecionar_estado_lista env e then (true, ["dropdown", "lista"])
  else if selecionar_estado_mapa env e then (true, ["dropdown", "lista", "mapa"])
  else (false, ["dropdown", "lista", "mapa"])

/-! ### SICARRobot.buscar_propriedade (pipeline, C7) -/

structure Propriedade where
  nome : String
deriving DecidableEq

structure PropResult where
  nome : String
  mapa : String
deriving DecidableEq

/-- Outcomes of the pipeline sub-calls.  An error value models an
exception escaping the sub-call (to be caught by the outer try). -/
structure RoboEnv where
  driverReady : Bool
  initDriver : Except String Bool
  acessar : Except String Bool
  identEstado : ℚ → ℚ → Except String (Option String)
  selEstado : String → Except String Bool
  identMunicipio : ℚ → ℚ → Except String (Option String)
  selMunicipio : String → Except String Bool
  buscarCoord : ℚ → ℚ → Except String (Option Propriedade)
  extrairMapa : Propriedade → Except String (Option String)

/-- The pipeline body of buscar_propriedade, before the enclosing
try/except.  Python falsiness of the intermediate values (None or empty
string or empty dict) maps each failed step to an early None. -/
def bodyBuscar (env : RoboEnv) (lat lon : ℚ) : Except String (Option PropResult) := do
  let driverOk ← if env.driverReady then pure true else env.initDriver
  if !driverOk then return none
  let ac ← env.acessar
  if !ac then return none
  let estadoOpt ← env.identEstado lat lon
  match estadoOpt with
  | none => return none
  | some estado =>
    if estado.isEmpty then return none
    let se ← env.selEstado estado
    if !se then return none
    let munOpt ← env.identMunicipio lat lon
    match munOpt with
    | none => return none
    | some mun =>
      if mun.isEmpty then return none
      let sm ← env.selMunicipio mun
      if !sm then return none
      let propOpt ← env.buscarCoord lat lon
      match propOpt with
      | none => return none
      | some prop =>
        let mapaOpt ← env.extrairMapa prop
        match mapaOpt with
        | none => return none
        | some mapa => return some ⟨prop.nome, mapa⟩

/-- SICARRobot.buscar_propriedade: the body wrapped in the try/except
that converts any exception to None. -/
def buscar_propriedade (env : RoboEnv) (lat lon : ℚ) : Option PropResult :=
  match bodyBuscar env lat lon with
  | Except.error _ => none
  | Except.ok r => r

/-- An environment whose portal access raises. -/
def crashEnv : RoboEnv :=
  { driverReady := true, initDriver := Except.ok true,
    acessar := Except.error "TimeoutException",
    identEstado := fun _ _ => Except.ok (some "Paraná"),
    selEstado := fun _ => Except.ok true,
    identMunicipio := fun _ _ => Except.ok (some "Douradina"),
    selMunicipio := fun _ => Except.ok true,
    buscarCoord := fun _ _ => Except.ok (some ⟨"Fazenda Santa Maria"⟩),
    extrairMapa := fun _ => Except.ok (some "maps/prop.png") }

/-- An environment where every step works but no property exists at the
coordinate. -/
def notFoundEnv : RoboEnv :=
  { driverReady := true, initDriver := Except.ok true,
    acessar := Except.ok true,
    identEstado := fun _ _ => Except.ok (some "Paraná"),
    selEstado := fun _ => Except.ok true,
    identMunicipio := fun _ _ => Except.ok (some "Douradina"),
    selMunicipio := fun _ => Except.ok true,
    buscarCoord := fun _ _ => Except.ok none,
    extrairMapa := fun _ => Except.ok (some "maps/prop.png") }
/-! ## Helper evaluation lemmas for concrete inputs -/

theorem pyFloatCore_dot_val (neg : Bool) (ds fs : List Char)
    (hds : ∀ c ∈ ds, isDig c = true) (hfs : ∀ c ∈ fs, isDig c = true)
    (hne : ds.isEmpty = false) :
    pyFloatCore neg (ds ++ '.' :: fs) =
      some (qSign neg ((natOfDigits ds : ℚ) + (natOfDigits fs : ℚ) / (10 : ℚ) ^ fs.length)) := by
  have h1 : digitsPrefix (ds ++ '.' :: fs) = (ds, '.' :: fs) := by
    apply digitsPrefix_append ds ('.' :: fs) hds
    intro h t hh
    injection hh with hh1 _
    rw [← hh1]
    decide
  have h2 : digitsPrefix fs = (fs, []) := digitsPrefix_self fs hfs
  unfold pyFloatCore
  rw [h1]
  simp [h2, hne]

theorem groupsToPair_eval (t1 t2 : List Char) (x y : ℚ)
    (h1 : pyFloatL t1 = some x) (h2 : pyFloatL t2 = some y) :
    groupsToPair (some (t1, t2)) = Except.ok (some (x, y)) := by
  simp [groupsToPair, h1, h2]

theorem pyFloatL_lat : pyFloatL ("-23.276064".toList) = some (-23.276064 : ℚ) := by
  have hstep : pyFloatL ("-23.276064".toList) =
      pyFloatCore true ("23".toList ++ '.' :: "276064".toList) := by
    have hd : isDig '2' = true := by decide
    have h := pyFloatL_sgnL true '2' ("3".toList ++ '.' :: "276064".toList) hd
    simpa using h
  rw [hstep,
    pyFloatCore_dot_val true ("23".toList) ("276064".toList) (by decide) (by decide) (by decide)]
  norm_num [qSign, show natOfDigits ['2', '3'] = 23 from rfl,
    show natOfDigits ['2', '7', '6', '0', '6', '4'] = 276064 from rfl]

theorem pyFloatL_lng : pyFloatL ("-53.266292".toList) = some (-53.266292 : ℚ) := by
  have hstep : pyFloatL ("-53.266292".toList) =
      pyFloatCore true ("53".toList ++ '.' :: "266292".toList) := by
    have hd : isDig '5' = true := by decide
    have h := pyFloatL_sgnL true '5' ("3".toList ++ '.' :: "266292".toList) hd
    simpa using h
  rw [hstep,
    pyFloatCore_dot_val true ("53".toList) ("266292".toList) (by decide) (by decide) (by decide)]
  norm_num [qSign, show natOfDigits ['5', '3'] = 53 from rfl,
    show natOfDigits ['2', '6', '6', '2', '9', '2'] = 266292 from rfl]

/-! ## Fixed data for the claims -/

/-- The 27 Brazilian federative units with their official names. -/
def officialStates27 : List (String × String) :=
  [("Acre", "AC"), ("Alagoas", "AL"), ("Amapá", "AP"), ("Amazonas", "AM"),
   ("Bahia", "BA"), ("Ceará", "CE"), ("Distrito Federal", "DF"),
   ("Espírito Santo", "ES"), ("Goiás", "GO"), ("Maranhão", "MA"),
   ("Mato Grosso", "MT"), ("Mato Grosso do Sul", "MS"), ("Minas Gerais", "MG"),
   ("Pará", "PA"), ("Paraíba", "PB"), ("Paraná", "PR"), ("Pernambuco", "PE"),
   ("Piauí", "PI"), ("Rio de Janeiro", "RJ"), ("Rio Grande do Norte", "RN"),
   ("Rio Grande do Sul", "RS"), ("Rondônia", "RO"), ("Roraima", "RR"),
   ("Santa Catarina", "SC"), ("São Paulo", "SP"), ("Sergipe", "SE"),
   ("Tocantins", "TO")]

/-- The seven return points of find_state_and_municipality, in source
order (the first and last coincide). -/
def sicarTuples : List (String × String × String) :=
  [("PR", "Paraná", "Douradina"), ("BA", "Bahia", "Salvador"),
   ("RS", "Rio Grande do Sul", "Porto Alegre"), ("SP", "São Paulo", "São Paulo"),
   ("MT", "Mato Grosso", "Cuiabá"), ("PA", "Pará", "Belém"),
   ("PR", "Paraná", "Douradina")]

/-- The five regional bounding boxes of find_state_and_municipality. -/
def inRegionalBox (lat lng : ℚ) : Prop :=
  (-12 > lat ∧ lat > -18 ∧ -38 > lng ∧ lng > -44) ∨
  (-22 > lat ∧ lat > -33 ∧ -48 > lng ∧ lng > -58) ∨
  (-15 > lat ∧ lat > -25 ∧ -40 > lng ∧ lng > -48) ∨
  (-10 > lat ∧ lat > -20 ∧ -45 > lng ∧ lng > -60) ∨
  (5 > lat ∧ lat > -10 ∧ -50 > lng ∧ lng > -70)

instance (lat lng : ℚ) : Decidable (inRegionalBox lat lng) := by
  unfold inRegionalBox
  infer_instance

/-- The normalization applied by selecionar_estado before the strategy
cascade. -/
def normEstado (estado : String) : String := pyStripStr (pyUpper estado)
/-! ## Claim theorems -/

/-- Claim C1: for the test coordinates (-23.276064, -53.266292), the
SICARConnector search returns a found record for Douradina, Paraná, with
property name Fazenda Santa Maria, area 128.5 and the fixed PR CAR
code. -/
theorem claim_search_property_douradina :
    ∃ r, search_property (CoordInput.pair (-23.276064) (-53.266292)) = Except.ok r ∧
      r.found = true ∧ r.state = "PR" ∧ r.state_name = "Paraná" ∧
      r.municipality = "Douradina" ∧ r.property_name = "Fazenda Santa Maria" ∧
      r.area = 128.5 ∧ r.car_code = "PR-4107207-79A269BEFA1443F9B06F8B7470D9F239" := by
  have hcond : pyAbs ((-23.276064 : ℚ) - (-23.276064 : ℚ)) < 0.1 ∧
      pyAbs ((-53.266292 : ℚ) - (-53.266292 : ℚ)) < 0.1 := by
    norm_num [pyAbs]
  have hfsm : find_state_and_municipality (-23.276064) (-53.266292) =
      ("PR", "Paraná", "Douradina") := by
    unfold find_state_and_municipality
    rw [if_pos hcond]
  have hrec : search_property_record (-23.276064) (-53.266292) =
      { found := true, state := "PR", state_name := "Paraná", municipality := "Douradina",
        property_name := "Fazenda Santa Maria",
        car_code := "PR-4107207-79A269BEFA1443F9B06F8B7470D9F239",
        area := 128.5, coordinates := (-23.276064, -53.266292), has_map := true } := by
    unfold search_property_record
    rw [hfsm, if_pos hcond]
  refine ⟨search_property_record (-23.276064) (-53.266292), rfl, ?_⟩
  rw [hrec]
  exact ⟨rfl, rfl, rfl, rfl, rfl, rfl, rfl⟩

/-- Claim C8: whatever coordinate input normalize_coordinates accepts,
search_property returns a record whose found field is True; the
simulated search likewise never reports not found. -/
theorem claim_search_property_always_found (input : CoordInput) (lat lng : ℚ)
    (h : normalize_coordinates input = Except.ok (lat, lng)) :
    (∃ r, search_property input = Except.ok r ∧ r.found = true) ∧
    (simulate_search lat lng).found = true := by
  constructor
  · refine ⟨search_property_record lat lng, ?_, ?_⟩
    · unfold search_property
      rw [h]
    · unfold search_property_record
      split <;> rfl
  · rfl

/-- Witness for C8 at the concrete tuple input (1, 2). -/
theorem claim_search_property_always_found_witness :
    normalize_coordinates (CoordInput.pair 1 2) = Except.ok (1, 2) ∧
    ((∃ r, search_property (CoordInput.pair 1 2) = Except.ok r ∧ r.found = true) ∧
      (simulate_search 1 2).found = true) :=
  ⟨rfl, claim_search_property_always_found (CoordInput.pair 1 2) 1 2 rfl⟩

/-- Claim C9: for every contents of the steps list, the progress value
int((completed*100 + running*50)/total) lies between 0 and 100. -/
theorem claim_status_progress_bounds (steps : List StepRec) :
    0 ≤ statusProgress steps ∧ statusProgress steps ≤ 100 := by
  refine ⟨Nat.zero_le _, ?_⟩
  unfold statusProgress
  split
  · omega
  · next hne =>
    have hpos : 0 < steps.length := by
      cases steps with
      | nil => simp at hne
      | cons a t => simp
    have hsum : steps.countP (fun st => st.status == "success" || st.status == "error") +
        steps.countP (fun st => st.status == "running") ≤ steps.length := by
      apply countP_disjoint_le
      intro a ha
      obtain ⟨h1, h2⟩ := ha
      have hr : a.status = "running" := by simpa using h2
      rw [hr] at h1
      simp at h1
    have hmul : steps.countP (fun st => st.status == "success" || st.status == "error") * 100 +
        steps.countP (fun st => st.status == "running") * 50 ≤ 100 * steps.length := by
      omega
    calc (steps.countP (fun st => st.status == "success" || st.status == "error") * 100 +
            steps.countP (fun st => st.status == "running") * 50) / steps.length
        ≤ 100 * steps.length / steps.length := Nat.div_le_div_right hmul
      _ = 100 := by rw [Nat.mul_comm]; exact Nat.mul_div_cancel_left _ hpos
/-- Claim C10: find_state_and_municipality is total and always returns
one of the seven fixed tuples; coordinates matching none of the regional
bounding boxes get the Douradina, Paraná default. -/
theorem claim_find_state_total (lat lng : ℚ) :
    find_state_and_municipality lat lng ∈ sicarTuples ∧
    (¬ inRegionalBox lat lng →
      find_state_and_municipality lat lng = ("PR", "Paraná", "Douradina")) := by
  constructor
  · unfold find_state_and_municipality
    split_ifs <;> simp [sicarTuples]
  · intro hbox
    unfold find_state_and_municipality
    split_ifs with h1 h2 h3 h4 h5 h6
    · rfl
    · exact absurd (Or.inl h2) hbox
    · exact absurd (Or.inr (Or.inl h3)) hbox
    · exact absurd (Or.inr (Or.inr (Or.inl h4))) hbox
    · exact absurd (Or.inr (Or.inr (Or.inr (Or.inl h5)))) hbox
    · exact absurd (Or.inr (Or.inr (Or.inr (Or.inr h6)))) hbox
    · rfl

/-- Witness for C10 at the origin, which lies in no box. -/
theorem claim_find_state_total_witness :
    ¬ inRegionalBox 0 0 ∧
    find_state_and_municipality 0 0 = ("PR", "Paraná", "Douradina") := by
  have hbox : ¬ inRegionalBox 0 0 := by norm_num [inRegionalBox]
  exact ⟨hbox, (claim_find_state_total 0 0).2 hbox⟩

/-- Claim C5: acessar_sicar makes at most max_attempts load attempts
(five by default), sleeps a constant two seconds after each failed
attempt with no backoff, and returns False when no attempt succeeds. -/
theorem claim_acessar_sicar_retry (devMode : Bool) (env : Nat → LoadOutcome)
    (maxAttempts : Nat) :
    (acessar_sicar devMode env = acessar_sicar devMode env 5) ∧
    (acessar_sicar devMode env maxAttempts).2.1 ≤ maxAttempts ∧
    (∀ d ∈ (acessar_sicar devMode env maxAttempts).2.2, d = 2) ∧
    ((∀ i < maxAttempts, attemptSucceeds devMode (env i) = false) →
      (acessar_sicar devMode env maxAttempts).1 = false ∧
      (acessar_sicar devMode env maxAttempts).2.1 = maxAttempts) := by
  have spec : ∀ k i,
      (acessarLoop devMode env i k).2.1 ≤ i + k ∧
      (∀ d ∈ (acessarLoop devMode env i k).2.2, d = 2) ∧
      ((∀ j, i ≤ j → j < i + k → attemptSucceeds devMode (env j) = false) →
        (acessarLoop devMode env i k).1 = false ∧
        (acessarLoop devMode env i k).2.1 = i + k) := by
    intro k
    induction k with
    | zero =>
      intro i
      refine ⟨by simp [acessarLoop], by simp [acessarLoop], ?_⟩
      intro _
      simp [acessarLoop]
    | succ n ih =>
      intro i
      by_cases hs : attemptSucceeds devMode (env i) = true
      · have heq : acessarLoop devMode env i (n + 1) = (true, i + 1, []) := by
          simp [acessarLoop, hs]
        rw [heq]
        refine ⟨?_, ?_, ?_⟩
        · show i + 1 ≤ i + (n + 1)
          omega
        · intro d hd
          simp at hd
        · intro hall
          have hfail := hall i (Nat.le_refl i) (by omega)
          rw [hfail] at hs
          cases hs
      · have hs' : attemptSucceeds devMode (env i) = false := by
          simpa using hs
        have heq : acessarLoop devMode env i (n + 1) =
            ((acessarLoop devMode env (i + 1) n).1,
             (acessarLoop devMode env (i + 1) n).2.1,
             2 :: (acessarLoop devMode env (i + 1) n).2.2) := by
          simp [acessarLoop, hs']
        obtain ⟨ih1, ih2, ih3⟩ := ih (i + 1)
        rw [heq]
        refine ⟨?_, ?_, ?_⟩
        · show (acessarLoop devMode env (i + 1) n).2.1 ≤ i + (n + 1)
          have := ih1
          omega
        · intro d hd
          simp at hd
          rcases hd with hd | hd
          · exact hd
          · exact ih2 d hd
        · intro hall
          have hrec := ih3 (fun j hj1 hj2 => hall j (by omega) (by omega))
          refine ⟨by simpa using hrec.1, ?_⟩
          simp only []
          rw [hrec.2]
          omega
  have h0 := spec maxAttempts 0
  refine ⟨rfl, by simpa [acessar_sicar] using h0.1, ?_, ?_⟩
  · have := h0.2.1
    simpa [acessar_sicar] using this
  · intro hall
    have := h0.2.2 (fun j _ hj => hall j (by simpa using hj))
    simpa [acessar_sicar] using this

/-- Witness for C5: five failing attempts, result False, five attempts
made, four-plus-one constant two-second sleeps. -/
theorem claim_acessar_sicar_retry_witness :
    (acessar_sicar false (fun _ => LoadOutcome.err) 5).1 = false ∧
    (acessar_sicar false (fun _ => LoadOutcome.err) 5).2.1 = 5 ∧
    (acessar_sicar false (fun _ => LoadOutcome.err) 5).2.2 = [2, 2, 2, 2, 2] := by
  have h := claim_acessar_sicar_retry false (fun _ => LoadOutcome.err) 5
  have h3 := h.2.2.2 (by intro i _; rfl)
  exact ⟨h3.1, h3.2, rfl⟩
/-- Claim C6: selecionar_estado tries dropdown, list and map strategies
in that fixed order, returns True at the first success without running
the later strategies, and returns False only with all three exhausted. -/
theorem claim_selecionar_estado_priority (env : EstadoEnv) (estado : String) :
    (selecionar_estado env estado).1 =
      (env.dropdown (normEstado estado) || env.lista (normEstado estado) ||
        selecionar_estado_mapa env (normEstado estado)) ∧
    (env.dropdown (normEstado estado) = true →
      (selecionar_estado env estado).2 = ["dropdown"]) ∧
    (env.dropdown (normEstado estado) = false → env.lista (normEstado estado) = true →
      (selecionar_estado env estado).2 = ["dropdown", "lista"]) ∧
    (env.dropdown (normEstado estado) = false → env.lista (normEstado estado) = false →
      (selecionar_estado env estado).2 = ["dropdown", "lista", "mapa"]) := by
  unfold selecionar_estado selecionar_estado_dropdown selecionar_estado_lista normEstado
  by_cases hd : env.dropdown (pyStripStr (pyUpper estado)) = true
  · simp [hd]
  · have hd' : env.dropdown (pyStripStr (pyUpper estado)) = false := by simpa using hd
    by_cases hl : env.lista (pyStripStr (pyUpper estado)) = true
    · simp [hd', hl]
    · have hl' : env.lista (pyStripStr (pyUpper estado)) = false := by simpa using hl
      by_cases hm : selecionar_estado_mapa env (pyStripStr (pyUpper estado)) = true
      · simp [hd', hl', hm]
      · have hm' : selecionar_estado_mapa env (pyStripStr (pyUpper estado)) = false := by
          simpa using hm
        simp [hd', hl', hm']

/-- Witness for C6: dropdown fails, list succeeds, map untried. -/
theorem claim_selecionar_estado_priority_witness :
    (selecionar_estado ⟨fun _ => false, fun _ => true, fun _ => false⟩ "Paraná").1 = true ∧
    (selecionar_estado ⟨fun _ => false, fun _ => true, fun _ => false⟩ "Paraná").2 =
      ["dropdown", "lista"] := by
  have h := claim_selecionar_estado_priority
    ⟨fun _ => false, fun _ => true, fun _ => false⟩ "Paraná"
  exact ⟨by rw [h.1]; rfl, h.2.2.1 rfl rfl⟩

/-- Claim C7: buscar_propriedade never propagates an exception: an error
in the body is converted to None, the result is always None or a value,
and a crashed pipeline is indistinguishable from a clean not-found. -/
theorem claim_buscar_propriedade_swallows (env : RoboEnv) (lat lon : ℚ) :
    ((∃ e, bodyBuscar env lat lon = Except.error e) →
      buscar_propriedade env lat lon = none) ∧
    (buscar_propriedade env lat lon = none ∨
      ∃ p, buscar_propriedade env lat lon = some p) ∧
    buscar_propriedade crashEnv lat lon = none ∧
    buscar_propriedade notFoundEnv lat lon = none := by
  refine ⟨?_, ?_, rfl, rfl⟩
  · rintro ⟨e, he⟩
    unfold buscar_propriedade
    rw [he]
  · cases h : buscar_propriedade env lat lon with
    | none => exact Or.inl rfl
    | some p => exact Or.inr ⟨p, rfl⟩

/-- Witness for C7 at a crashing environment and concrete coordinates. -/
theorem claim_buscar_propriedade_swallows_witness :
    buscar_propriedade crashEnv 0 0 = none ∧ buscar_propriedade notFoundEnv 0 0 = none :=
  ⟨(claim_buscar_propriedade_swallows crashEnv 0 0).1 ⟨"TimeoutException", rfl⟩,
   (claim_buscar_propriedade_swallows notFoundEnv 0 0).2.2.2⟩
/-- A running state reached through the handlers: /sicar/search with id
a, then the robot thread marks the init step running. -/
def c3State : AppState :=
  update_progress "init" "running" (sicar_search "a" true reset_state)

/-- Counterexample to claim C3 as stated: the /sicar/cancel/<id> path
cancels a running search but leaves a step with status running. -/
theorem claim_cancel_counterexample :
    c3State.status = "running" ∧
    (sicar_cancel "a" c3State).status = "canceled" ∧
    ((sicar_cancel "a" c3State).steps.any (fun st => st.status == "running")) = true := by
  refine ⟨rfl, rfl, ?_⟩
  decide

/-- Claim C3 as amended: starting a search sets status running; the
/cancelar handler moves a running search to idle and leaves no running
step; the /sicar/cancel/<id> handler moves a running search to canceled
but does not modify the steps list at all, so running steps survive. -/
theorem claim_cancel_lifecycle_amended (s : AppState) (lat lon : ℚ) (sid : String) :
    (iniciar_busca (some lat) (some lon) s).status = "running" ∧
    (s.status = "running" →
      (cancelar_busca s).status = "idle" ∧
      ((cancelar_busca s).steps.all (fun st => !(st.status == "running"))) = true) ∧
    (s.status = "running" → s.searchId = some sid →
      (sicar_cancel sid s).status = "canceled" ∧ (sicar_cancel sid s).steps = s.steps) := by
  refine ⟨rfl, ?_, ?_⟩
  · intro hrun
    have hcond : (s.status != "running") = false := by simp [hrun]
    constructor
    · unfold cancelar_busca
      rw [hcond]
      simp
    · unfold cancelar_busca
      rw [hcond]
      simp only [if_neg, Bool.false_eq_true, not_false_eq_true, List.all_map, List.all_eq_true,
        Function.comp]
      intro st _
      by_cases h : st.status == "running"
      · simp [h]
      · simp only [h, if_neg, Bool.false_eq_true, not_false_eq_true]
        simp [h]
  · intro hrun hsid
    have h1 : (s.searchId != some sid) = false := by simp [hsid]
    have h2 : (s.status == "running") = true := by simp [hrun]
    unfold sicar_cancel
    rw [h1, h2]
    exact ⟨rfl, rfl⟩

/-- Witness for the amended C3, at a concrete running state created by
the /sicar/search handler. -/
theorem claim_cancel_lifecycle_amended_witness :
    ((iniciar_busca (some 1) (some 2) (sicar_search "x" true reset_state)).status = "running") ∧
    ((cancelar_busca (sicar_search "x" true reset_state)).status = "idle" ∧
      ((cancelar_busca (sicar_search "x" true reset_state)).steps.all
        (fun st => !(st.status == "running"))) = true) ∧
    ((sicar_cancel "x" (sicar_search "x" true reset_state)).status = "canceled" ∧
      (sicar_cancel "x" (sicar_search "x" true reset_state)).steps =
        (sicar_search "x" true reset_state).steps) := by
  have h := claim_cancel_lifecycle_amended (sicar_search "x" true reset_state) 1 2 "x"
  exact ⟨h.1, h.2.1 rfl, h.2.2 rfl rfl⟩

/-- Claim C4 (code bug): _mapear_estado_para_sigla maps all 27 official
state names to the correct UF, but nome_para_uf raises AttributeError on
every input, because the module binds unidecode to the function itself
and then calls unidecode.unidecode. -/
theorem claim_estado_mapping_bug :
    (officialStates27.all fun p => mapear_estado_para_sigla p.1 == p.2) = true ∧
    nome_para_uf "Paraná" = Except.error "AttributeError" ∧
    (∀ s : String, nome_para_uf s = Except.error "AttributeError") :=
  ⟨by decide, rfl, fun _ => rfl⟩
/-- Claim C2: parse_coordinates maps the decimal test string to the test
pair; extract_from_maps_url maps a Google Maps URL containing the at
pattern to the same pair for any network oracle; and on every input both
functions return an Option value and never let an exception escape. -/
theorem claim_location_parsing :
    parse_coordinates "-23.276064, -53.266292" =
      Except.ok (some (-23.276064, -53.266292)) ∧
    (∀ expand : List Char → Option (List Char),
      extract_from_maps_url expand "https://www.google.com/maps/@-23.276064,-53.266292,15z" =
        some (-23.276064, -53.266292)) ∧
    (∀ s, ∃ r, parse_coordinates s = Except.ok r) ∧
    (∀ expand url, ∃ r, extractBody expand url.toList = Except.ok r ∧
      extract_from_maps_url expand url = r) := by
  refine ⟨?_, ?_, parse_coordinates_ok, extract_from_maps_url_ok⟩
  · have hm : matchDecimalAnchored (stripWS ("-23.276064, -53.266292".toList)) =
        some ("-23.276064".toList, "-53.266292".toList) := by decide
    simp only [parse_coordinates]
    rw [hm]
    exact groupsToPair_eval _ _ _ _ pyFloatL_lat pyFloatL_lng
  · intro expand
    have hs : searchSlashAtPair
          (("https://www.google.com/maps/@-23.276064,-53.266292,15z" : String).toList) =
        some ("-23.276064".toList, "-53.266292".toList) := by decide
    unfold extract_from_maps_url extractBody
    rw [hs, groupsToPair_eval _ _ _ _ pyFloatL_lat pyFloatL_lng]
    rfl
